import Mathlib

/-
Verification of the stateful ODE solver module of ContinuousNet
(continuous_net_jax/stateful_ode_solvers.py).

The integration state `x`, stage rates `k`, times and step sizes are
modelled as exact rationals (the examples in question are scalar).
Parameter snapshots and auxiliary states are abstract type parameters
`P` and `S`.  A Python scheme function either returns a 2-tuple
`(state, x)` or a bare array; the drivers unpack the result with
`state, x = scheme(...)`, which raises `TypeError` on a non-tuple, so a
scheme's return value is modelled by the inductive `SchemeRet` and the
drivers by `Except String`-valued functions.  Python's `1.0 / n_step`
raises `ZeroDivisionError` for `n_step = 0`, modelled by the guard at
the top of both drivers.
-/

namespace ContinuousNet

/-- Return value of a scheme as consumed by the drivers' tuple unpacking
`state, x = scheme(...)`: either a 2-tuple `(aux, x)` or a bare value `x`
(whose unpacking fails). -/
inductive SchemeRet (S α : Type) where
  | pair (s : S) (x : α)
  | single (x : α)
deriving DecidableEq

/-- True when the returned value is a bare state rather than a 2-tuple. -/
def SchemeRet.isSingle {S α : Type} : SchemeRet S α → Bool
  | .single _ => true
  | .pair _ _ => false

/-- `DT_OPEN_SET_EPS = 1.0e-5` (line 24 of the source): offset subtracted
from the final stage time of the 4-stage schemes to keep evaluations of
`params_of_t` inside the half-open step interval. -/
def DT_OPEN_SET_EPS : ℚ := 1 / 100000

/-- Forward Euler (source lines 27-34): `state1, k1 = f(params_of_t(t0), x)`;
returns `(state1, x + Dt * k1)`. -/
def Euler {P S : Type} (params_of_t : ℚ → P) (x : ℚ) (t0 : ℚ)
    (f : P → ℚ → S × ℚ) (Dt : ℚ) : SchemeRet S ℚ :=
  let r1 := f (params_of_t t0) x
  SchemeRet.pair r1.1 (x + Dt * r1.2)

/-- Explicit midpoint (source lines 37-46): two stages, returns
`(state2, x + Dt * k2)`. -/
def Midpoint {P S : Type} (params_of_t : ℚ → P) (x : ℚ) (t0 : ℚ)
    (f : P → ℚ → S × ℚ) (Dt : ℚ) : SchemeRet S ℚ :=
  let r1 := f (params_of_t t0) x
  let x1 := x + 0.5 * Dt * r1.2
  let r2 := f (params_of_t (t0 + 0.5 * Dt)) x1
  SchemeRet.pair r2.1 (x + Dt * r2.2)

/-- Classic RK4 (source lines 49-63).  Note the source's
`return x + Dt * (1.0/6.0*k1 + 1.0/3.0*k2 + 1.0/3.0*k3 + 1.0/6.0*k4)`
returns a bare array, not a `(state, x)` tuple: `state4` is computed and
dropped, hence `SchemeRet.single`. -/
def RK4 {P S : Type} (params_of_t : ℚ → P) (x : ℚ) (t0 : ℚ)
    (f : P → ℚ → S × ℚ) (Dt : ℚ) : SchemeRet S ℚ :=
  let r1 := f (params_of_t t0) x
  let x1 := x + 0.5 * Dt * r1.2
  let r2 := f (params_of_t (t0 + 0.5 * Dt)) x1
  let x2 := x + 0.5 * Dt * r2.2
  let r3 := f (params_of_t (t0 + 0.5 * Dt)) x2
  let x3 := x + Dt * r3.2
  let r4 := f (params_of_t (t0 + Dt - DT_OPEN_SET_EPS)) x3
  SchemeRet.single
    (x + Dt * (1/6 * r1.2 + 1/3 * r2.2 + 1/3 * r3.2 + 1/6 * r4.2))

/-- The 3/8s RK4 (source lines 66-81): four stages, returns
`(state4, xf)`. -/
def RK4_38 {P S : Type} (params_of_t : ℚ → P) (x : ℚ) (t0 : ℚ)
    (f : P → ℚ → S × ℚ) (Dt : ℚ) : SchemeRet S ℚ :=
  let r1 := f (params_of_t t0) x
  let x1 := x + 1/3 * Dt * r1.2
  let r2 := f (params_of_t (t0 + 1/3 * Dt)) x1
  let x2 := x + Dt * (-(1/3) * r1.2 + 1 * r2.2)
  let r3 := f (params_of_t (t0 + 2/3 * Dt)) x2
  let x3 := x + Dt * (r1.2 - r2.2 + r3.2)
  let r4 := f (params_of_t (t0 + Dt - DT_OPEN_SET_EPS)) x3
  SchemeRet.pair r4.1
    (x + Dt * (1/8 * r1.2 + 3/8 * r2.2 + 3/8 * r3.2 + 1/8 * r4.2))

/-- The common type of the four scheme functions. -/
abbrev SchemeFn (P S : Type) :=
  (ℚ → P) → ℚ → ℚ → (P → ℚ → S × ℚ) → ℚ → SchemeRet S ℚ

/-- `SCHEME_TABLE` (source lines 84-89): the association of canonical
names to scheme functions; a Python dict lookup by unknown key raises
`KeyError`, modelled by `List.lookup` returning `none`. -/
def SCHEME_TABLE (P S : Type) : List (String × SchemeFn P S) :=
  [("Euler", Euler), ("Midpoint", Midpoint), ("RK4", RK4), ("RK4_38", RK4_38)]

/-- `numpy.linspace(start, stop, num)` with the default `endpoint=True`:
`num` evenly spaced values over `[start, stop]`, i.e.
`start + (stop - start) * i / (num - 1)` for `i = 0 .. num-1`; for
`num = 1` just `[start]`, for `num = 0` the empty list. -/
def linspace (start stop : ℚ) (num : ℕ) : List ℚ :=
  if num ≤ 1 then (List.range num).map (fun _ => start)
  else (List.range num).map
    (fun i : ℕ => start + (stop - start) * (i : ℚ) / ((num : ℚ) - 1))

/-- `StateOdeIntegrateFast` (source lines 92-100): `dt = 1.0 / n_step`
(raising `ZeroDivisionError` when `n_step = 0`), then
`for t in onp.linspace(0, 1, n_step): state, x = scheme(params_of_t, x, t, f, dt)`,
returning the final `x`.  The tuple unpacking raises `TypeError` when the
scheme returns a bare value. -/
def StateOdeIntegrateFast {P S : Type} (params_of_t : ℚ → P) (x : ℚ)
    (f : P → ℚ → S × ℚ) (scheme : SchemeFn P S) (n_step : ℕ) :
    Except String ℚ :=
  if n_step = 0 then Except.error "ZeroDivisionError" else
  let dt : ℚ := 1 / n_step
  (linspace 0 1 n_step).foldlM
    (fun x t =>
      match scheme params_of_t x t f dt with
      | SchemeRet.pair _ y => Except.ok y
      | SchemeRet.single _ => Except.error "TypeError")
    x

/-- `StateOdeIntegrateWithPoints` (source lines 103-113): the same loop,
but starting from `xs = [onp.array(x)]` and appending a snapshot of `x`
after every step; returns `xs`. -/
def StateOdeIntegrateWithPoints {P S : Type} (params_of_t : ℚ → P) (x : ℚ)
    (f : P → ℚ → S × ℚ) (scheme : SchemeFn P S) (n_step : ℕ) :
    Except String (List ℚ) :=
  if n_step = 0 then Except.error "ZeroDivisionError" else
  let dt : ℚ := 1 / n_step
  Except.map Prod.snd
    ((linspace 0 1 n_step).foldlM
      (fun (acc : ℚ × List ℚ) t =>
        match scheme params_of_t acc.1 t f dt with
        | SchemeRet.pair _ y => Except.ok (y, acc.2 ++ [y])
        | SchemeRet.single _ => Except.error "TypeError")
      (x, [x]))

/-- A scheme given directly as a pure function returning a
`(aux, new_x)` pair, the shape the drivers expect. -/
abbrev PureScheme (P S : Type) :=
  (ℚ → P) → ℚ → ℚ → (P → ℚ → S × ℚ) → ℚ → S × ℚ

/-- Wrap a pure pair-returning scheme as a `SchemeFn`. -/
def toScheme {P S : Type} (g : PureScheme P S) : SchemeFn P S :=
  fun p x t f dt => SchemeRet.pair (g p x t f dt).1 (g p x t f dt).2

/-- Sequential stepping: run the scheme once per start time, feeding each
step's output state into the next step. -/
def stepChain {P S : Type} (g : PureScheme P S) (p : ℚ → P)
    (f : P → ℚ → S × ℚ) (dt : ℚ) : List ℚ → ℚ → ℚ
  | [], x => x
  | t :: ts, x => stepChain g p f dt ts (g p x t f dt).2

/-- The sequence of states produced after each step, in order. -/
def snapshots {P S : Type} (g : PureScheme P S) (p : ℚ → P)
    (f : P → ℚ → S × ℚ) (dt : ℚ) : List ℚ → ℚ → List ℚ
  | [], _ => []
  | t :: ts, x =>
    let y := (g p x t f dt).2
    y :: snapshots g p f dt ts y

/-- The times at which one Euler step evaluates `params_of_t`. -/
def EulerQueryTimes (t0 _Dt : ℚ) : List ℚ := [t0]

/-- The times at which one Midpoint step evaluates `params_of_t`. -/
def MidpointQueryTimes (t0 Dt : ℚ) : List ℚ := [t0, t0 + 0.5 * Dt]

/-- The times at which one RK4 step evaluates `params_of_t`. -/
def RK4QueryTimes (t0 Dt : ℚ) : List ℚ :=
  [t0, t0 + 0.5 * Dt, t0 + 0.5 * Dt, t0 + Dt - DT_OPEN_SET_EPS]

/-- The times at which one RK4_38 step evaluates `params_of_t`. -/
def RK4_38QueryTimes (t0 Dt : ℚ) : List ℚ :=
  [t0, t0 + 1/3 * Dt, t0 + 2/3 * Dt, t0 + Dt - DT_OPEN_SET_EPS]

/-- The fast driver with a pair-returning scheme runs the step chain over
the `linspace` grid. -/
lemma fast_eq_stepChain {P S : Type} (g : PureScheme P S) (p : ℚ → P)
    (x : ℚ) (f : P → ℚ → S × ℚ) (n : ℕ) (hn : n ≠ 0) :
    StateOdeIntegrateFast p x f (toScheme g) n
      = Except.ok (stepChain g p f (1 / (n : ℚ)) (linspace 0 1 n) x) := by
  unfold StateOdeIntegrateFast
  rw [if_neg hn]
  generalize linspace 0 1 n = ts
  induction ts generalizing x with
  | nil => rfl
  | cons t ts ih =>
      simp only [List.foldlM, toScheme, stepChain]
      exact ih _

/-- The recording driver's fold accumulates the snapshots list. -/
lemma wp_fold {P S : Type} (g : PureScheme P S) (p : ℚ → P)
    (f : P → ℚ → S × ℚ) (dt : ℚ) : ∀ (ts : List ℚ) (x : ℚ) (acc : List ℚ),
    List.foldlM
      (fun (a : ℚ × List ℚ) t =>
        match toScheme g p a.1 t f dt with
        | SchemeRet.pair _ y => Except.ok (y, a.2 ++ [y])
        | SchemeRet.single _ => Except.error "TypeError")
      (x, acc) ts
      = Except.ok (stepChain g p f dt ts x, acc ++ snapshots g p f dt ts x) := by
  intro ts
  induction ts with
  | nil =>
      intro x acc
      show Except.ok (x, acc)
        = Except.ok (stepChain g p f dt [] x, acc ++ snapshots g p f dt [] x)
      simp [stepChain, snapshots]
  | cons t ts ih =>
      intro x acc
      rw [List.foldlM_cons]
      show (Except.ok ((g p x t f dt).2, acc ++ [(g p x t f dt).2]) >>= fun s =>
          List.foldlM _ s ts) = _
      rw [show ∀ (a : ℚ × List ℚ) k,
            (Except.ok a >>= k : Except String (ℚ × List ℚ)) = k a
          from fun a k => rfl]
      rw [ih]
      simp [stepChain, snapshots]

/-- The recording driver with a pair-returning scheme returns the input
state followed by the snapshots of the step chain. -/
lemma withPoints_eq_snapshots {P S : Type} (g : PureScheme P S) (p : ℚ → P)
    (x : ℚ) (f : P → ℚ → S × ℚ) (n : ℕ) (hn : n ≠ 0) :
    StateOdeIntegrateWithPoints p x f (toScheme g) n
      = Except.ok (x :: snapshots g p f (1 / (n : ℚ)) (linspace 0 1 n) x) := by
  unfold StateOdeIntegrateWithPoints
  rw [if_neg hn]
  show Except.map Prod.snd
      (List.foldlM
        (fun (acc : ℚ × List ℚ) t =>
          match toScheme g p acc.1 t f (1 / (n : ℚ)) with
          | SchemeRet.pair _ y => Except.ok (y, acc.2 ++ [y])
          | SchemeRet.single _ => Except.error "TypeError")
        (x, [x]) (linspace 0 1 n)) = _
  rw [wp_fold]
  rfl

/-- Snapshots are one per step. -/
lemma snapshots_length {P S : Type} (g : PureScheme P S) (p : ℚ → P)
    (f : P → ℚ → S × ℚ) (dt : ℚ) : ∀ (ts : List ℚ) (x : ℚ),
    (snapshots g p f dt ts x).length = ts.length := by
  intro ts
  induction ts with
  | nil => intro x; rfl
  | cons t ts ih => intro x; simp [snapshots, ih]

/-- The last snapshot (or the input when there is no step) is the final
chained state. -/
lemma snapshots_getLast {P S : Type} (g : PureScheme P S) (p : ℚ → P)
    (f : P → ℚ → S × ℚ) (dt : ℚ) : ∀ (ts : List ℚ) (x : ℚ),
    (x :: snapshots g p f dt ts x).getLast? = some (stepChain g p f dt ts x) := by
  intro ts
  induction ts with
  | nil => intro x; rfl
  | cons t ts ih =>
      intro x
      rw [show snapshots g p f dt (t :: ts) x
            = (g p x t f dt).2 :: snapshots g p f dt ts (g p x t f dt).2 from rfl]
      rw [List.getLast?_cons_cons]
      exact ih _

/-- Snapshot `i` is the state after running the first `i + 1` steps. -/
lemma snapshots_getElem {P S : Type} (g : PureScheme P S) (p : ℚ → P)
    (f : P → ℚ → S × ℚ) (dt : ℚ) : ∀ (ts : List ℚ) (x : ℚ) (i : ℕ),
    i < ts.length →
    (snapshots g p f dt ts x)[i]?
      = some (stepChain g p f dt (ts.take (i + 1)) x) := by
  intro ts
  induction ts with
  | nil => intro x i h; simp at h
  | cons t ts ih =>
      intro x i h
      cases i with
      | zero => simp [snapshots, stepChain]
      | succ j =>
          have hj : j < ts.length := by simpa using h
          simp only [snapshots, List.take, stepChain]
          simpa using ih _ j hj

/-- `linspace` always produces `num` points. -/
lemma linspace_length (a b : ℚ) (n : ℕ) : (linspace a b n).length = n := by
  unfold linspace
  split <;> rw [List.length_map, List.length_range]

/-- For `2 ≤ num` the grid over `[0, 1]` is `i / (num - 1)`, the last
point being exactly `1`. -/
lemma linspace_eq_of_two_le (n : ℕ) (hn : 2 ≤ n) :
    linspace 0 1 n = (List.range n).map (fun i : ℕ => (i : ℚ) / ((n : ℚ) - 1)) := by
  unfold linspace
  rw [if_neg (by omega)]
  refine List.map_congr_left fun i _ => ?_
  ring

/-- The one-point grid. -/
lemma linspace_one_point : linspace 0 1 1 = [0] := by
  unfold linspace
  norm_num

/-- The grid points are strictly increasing. -/
lemma linspace_sorted (n : ℕ) : (linspace 0 1 n).Sorted (· < ·) := by
  unfold linspace
  split
  · next h =>
      interval_cases n <;> decide
  · next h =>
      have h2 : 2 ≤ n := by omega
      have hd : (0 : ℚ) < (n : ℚ) - 1 := by
        have : (2 : ℚ) ≤ (n : ℚ) := by exact_mod_cast h2
        linarith
      refine List.Pairwise.map _ ?_ (List.pairwise_lt_range n)
      intro i j hij
      have hij' : (i : ℚ) < (j : ℚ) := by exact_mod_cast hij
      have := div_lt_div_of_pos_right hij' hd
      simp only [zero_add, sub_zero, one_mul]
      exact this

/-- C1: the claim states every scheme returns a pair
`(auxiliary_state, new_x)` with the auxiliary state of the final
RateEquation call.  Euler, Midpoint and RK4_38 do, but `RK4`'s
`return x + Dt * (...)` (source lines 62-63) returns a bare state and
drops `state4`, so `RK4` never returns a pair: its result is always a
`single` value, for every input. -/
theorem rk4_returns_bare_state (P S : Type) (params_of_t : ℚ → P)
    (x t0 : ℚ) (f : P → ℚ → S × ℚ) (Dt : ℚ) :
    (RK4 params_of_t x t0 f Dt).isSingle = true := rfl

/-- C3: in the concrete scenario (scalar `x = 1`, `f p x = (None, -x)`,
constant `params_of_t`, `n_step = 100`, scheme `RK4`),
`StateOdeIntegrateFast` does not return a value near `e⁻¹`: the first
loop iteration's unpacking `state, x = scheme(...)` fails with
`TypeError` because `RK4` returns a bare state (see C1). -/
theorem rk4_fast_scenario_raises :
    StateOdeIntegrateFast (fun _ : ℚ => ()) 1 (fun _ x => ((), -x)) RK4 100
      = Except.error "TypeError" := rfl

/-- C5: a single RK4 step takes `k1 = f(params_of_t(t0), x)`, `k2` at
`x1 = x + 0.5*Dt*k1`, `k3` at `x2 = x + 0.5*Dt*k2`, `k4` at
`x3 = x + Dt*k3`, and returns the new state
`x + Dt*(k1/6 + k2/3 + k3/3 + k4/6)` (as a bare value, per C1). -/
theorem rk4_stage_combination (P S : Type) (params_of_t : ℚ → P)
    (x t0 : ℚ) (f : P → ℚ → S × ℚ) (Dt : ℚ) :
    RK4 params_of_t x t0 f Dt =
      (let k1 := (f (params_of_t t0) x).2
       let x1 := x + 0.5 * Dt * k1
       let k2 := (f (params_of_t (t0 + 0.5 * Dt)) x1).2
       let x2 := x + 0.5 * Dt * k2
       let k3 := (f (params_of_t (t0 + 0.5 * Dt)) x2).2
       let x3 := x + Dt * k3
       let k4 := (f (params_of_t (t0 + Dt - DT_OPEN_SET_EPS)) x3).2
       SchemeRet.single (x + Dt * (k1 / 6 + k2 / 3 + k3 / 3 + k4 / 6))) := by
  simp only [RK4]
  congr 1
  ring

/-- C6: a single RK4_38 step takes `k1 = f(params_of_t(t0), x)`, `k2` at
`x1 = x + Dt*k1/3` and time `t0 + Dt/3`, `k3` at `x2 = x + Dt*(-k1/3 + k2)`
and time `t0 + 2*Dt/3`, `k4` at `x3 = x + Dt*(k1 - k2 + k3)`, and returns
the new state `x + Dt*(k1/8 + 3*k2/8 + 3*k3/8 + k4/8)` (paired with the
final stage's auxiliary state). -/
theorem rk4_38_stage_combination (P S : Type) (params_of_t : ℚ → P)
    (x t0 : ℚ) (f : P → ℚ → S × ℚ) (Dt : ℚ) :
    RK4_38 params_of_t x t0 f Dt =
      (let k1 := (f (params_of_t t0) x).2
       let x1 := x + Dt * k1 / 3
       let k2 := (f (params_of_t (t0 + Dt / 3)) x1).2
       let x2 := x + Dt * (-k1 / 3 + k2)
       let k3 := (f (params_of_t (t0 + 2 * Dt / 3)) x2).2
       let x3 := x + Dt * (k1 - k2 + k3)
       let r4 := f (params_of_t (t0 + Dt - DT_OPEN_SET_EPS)) x3
       SchemeRet.pair r4.1
         (x + Dt * (k1 / 8 + 3 * k2 / 8 + 3 * k3 / 8 + r4.2 / 8))) := by
  simp only [RK4_38]
  ring_nf

/-- C10: with `n_step = 0` both drivers fail on `dt = 1.0 / n_step` with
a division-by-zero error, for every `params_of_t`, state, rate equation
and scheme (so no scheme or rate-equation evaluation can occur and no
state is returned). -/
theorem n_step_zero_division_error (P S : Type) (params_of_t : ℚ → P)
    (x : ℚ) (f : P → ℚ → S × ℚ) (scheme : SchemeFn P S) :
    StateOdeIntegrateFast params_of_t x f scheme 0
        = Except.error "ZeroDivisionError" ∧
    StateOdeIntegrateWithPoints params_of_t x f scheme 0
        = Except.error "ZeroDivisionError" :=
  ⟨rfl, rfl⟩

/-- C9: looking up each of the four canonical names in `SCHEME_TABLE`
returns the very scheme function of that name (so any call through the
table agrees with a direct call), and looking up any other name is a
key-not-found failure (`none`, a Python `KeyError`). -/
theorem scheme_table_lookup (P S : Type) :
    (SCHEME_TABLE P S).lookup "Euler" = some Euler ∧
    (SCHEME_TABLE P S).lookup "Midpoint" = some Midpoint ∧
    (SCHEME_TABLE P S).lookup "RK4" = some RK4 ∧
    (SCHEME_TABLE P S).lookup "RK4_38" = some RK4_38 ∧
    ∀ name : String, name ∉ ["Euler", "Midpoint", "RK4", "RK4_38"] →
      (SCHEME_TABLE P S).lookup name = none := by
  refine ⟨rfl, rfl, rfl, rfl, ?_⟩
  intro name h
  simp only [List.mem_cons, List.not_mem_nil, or_false, not_or] at h
  obtain ⟨h1, h2, h3, h4⟩ := h
  have e1 : (name == "Euler") = false := beq_eq_false_iff_ne.mpr h1
  have e2 : (name == "Midpoint") = false := beq_eq_false_iff_ne.mpr h2
  have e3 : (name == "RK4") = false := beq_eq_false_iff_ne.mpr h3
  have e4 : (name == "RK4_38") = false := beq_eq_false_iff_ne.mpr h4
  simp [SCHEME_TABLE, List.lookup, e1, e2, e3, e4]

/-- C9 witness: the round trip at the name RK4 and the failure at an
unknown name, both concrete. -/
theorem scheme_table_lookup_witness :
    (SCHEME_TABLE Unit Unit).lookup "RK4" = some RK4 ∧
    (SCHEME_TABLE Unit Unit).lookup "Verlet" = none :=
  ⟨(scheme_table_lookup Unit Unit).2.2.1,
    (scheme_table_lookup Unit Unit).2.2.2.2 "Verlet" (by decide)⟩

/-- C4: for a single step with `0 < Dt`, every evaluation of
`params_of_t` stays inside the half-open interval `[t0, t0 + Dt)`: the
query times are `t0` for Euler; `t0, t0 + Dt/2` for Midpoint (both in
domain for every `0 < Dt`, no epsilon needed); `t0, t0 + Dt/2,
t0 + Dt/2, t0 + Dt - ε` for RK4; and `t0, t0 + Dt/3, t0 + 2Dt/3,
t0 + Dt - ε` for RK4_38 (in domain when additionally
`DT_OPEN_SET_EPS < Dt`, the 4-stage proviso) — each scheme's output
depends on `params_of_t` only through those times (the last four
conjuncts, which need no hypothesis at all), and each such time `t`
satisfies `t0 ≤ t < t0 + Dt` (the first four conjuncts), so none is at
or beyond `t0 + Dt`. -/
theorem scheme_query_times_in_domain (P S : Type) (t0 Dt : ℚ)
    (hDt : 0 < Dt) :
    (∀ t ∈ EulerQueryTimes t0 Dt, t0 ≤ t ∧ t < t0 + Dt) ∧
    (∀ t ∈ MidpointQueryTimes t0 Dt, t0 ≤ t ∧ t < t0 + Dt) ∧
    (DT_OPEN_SET_EPS < Dt →
      ∀ t ∈ RK4QueryTimes t0 Dt, t0 ≤ t ∧ t < t0 + Dt) ∧
    (DT_OPEN_SET_EPS < Dt →
      ∀ t ∈ RK4_38QueryTimes t0 Dt, t0 ≤ t ∧ t < t0 + Dt) ∧
    (∀ (p q : ℚ → P) (x : ℚ) (f : P → ℚ → S × ℚ),
      (∀ t ∈ EulerQueryTimes t0 Dt, p t = q t) →
      Euler p x t0 f Dt = Euler q x t0 f Dt) ∧
    (∀ (p q : ℚ → P) (x : ℚ) (f : P → ℚ → S × ℚ),
      (∀ t ∈ MidpointQueryTimes t0 Dt, p t = q t) →
      Midpoint p x t0 f Dt = Midpoint q x t0 f Dt) ∧
    (∀ (p q : ℚ → P) (x : ℚ) (f : P → ℚ → S × ℚ),
      (∀ t ∈ RK4QueryTimes t0 Dt, p t = q t) →
      RK4 p x t0 f Dt = RK4 q x t0 f Dt) ∧
    (∀ (p q : ℚ → P) (x : ℚ) (f : P → ℚ → S × ℚ),
      (∀ t ∈ RK4_38QueryTimes t0 Dt, p t = q t) →
      RK4_38 p x t0 f Dt = RK4_38 q x t0 f Dt) := by
  have hepos : (0 : ℚ) < DT_OPEN_SET_EPS := by norm_num [DT_OPEN_SET_EPS]
  have hhalf : (0.5 : ℚ) = 1 / 2 := by norm_num
  refine ⟨?_, ?_, ?_, ?_, ?_, ?_, ?_, ?_⟩
  · intro t ht
    simp only [EulerQueryTimes, List.mem_singleton] at ht
    subst ht
    exact ⟨le_refl _, by linarith⟩
  · intro t ht
    simp only [MidpointQueryTimes, List.mem_cons, List.not_mem_nil,
      or_false] at ht
    rcases ht with ht | ht <;> subst ht
    · exact ⟨le_refl _, by linarith⟩
    · rw [hhalf]
      exact ⟨by linarith, by linarith⟩
  · intro heps t ht
    simp only [RK4QueryTimes, List.mem_cons, List.not_mem_nil,
      or_false] at ht
    rcases ht with ht | ht | ht | ht <;> subst ht
    · exact ⟨le_refl _, by linarith⟩
    · rw [hhalf]
      exact ⟨by linarith, by linarith⟩
    · rw [hhalf]
      exact ⟨by linarith, by linarith⟩
    · exact ⟨by linarith, by linarith⟩
  · intro heps t ht
    simp only [RK4_38QueryTimes, List.mem_cons, List.not_mem_nil,
      or_false] at ht
    rcases ht with ht | ht | ht | ht <;> subst ht
    · exact ⟨le_refl _, by linarith⟩
    · exact ⟨by linarith, by linarith⟩
    · exact ⟨by linarith, by linarith⟩
    · exact ⟨by linarith, by linarith⟩
  · intro p q x f h
    have h1 := h t0 (by simp [EulerQueryTimes])
    simp only [Euler, h1]
  · intro p q x f h
    have h1 := h t0 (by simp [MidpointQueryTimes])
    have h2 := h (t0 + 0.5 * Dt) (by simp [MidpointQueryTimes])
    simp only [Midpoint, h1, h2]
  · intro p q x f h
    have h1 := h t0 (by simp [RK4QueryTimes])
    have h2 := h (t0 + 0.5 * Dt) (by simp [RK4QueryTimes])
    have h4 := h (t0 + Dt - DT_OPEN_SET_EPS) (by simp [RK4QueryTimes])
    simp only [RK4, h1, h2, h4]
  · intro p q x f h
    have h1 := h t0 (by simp [RK4_38QueryTimes])
    have h2 := h (t0 + 1 / 3 * Dt) (by simp [RK4_38QueryTimes])
    have h3 := h (t0 + 2 / 3 * Dt) (by simp [RK4_38QueryTimes])
    have h4 := h (t0 + Dt - DT_OPEN_SET_EPS) (by simp [RK4_38QueryTimes])
    simp only [RK4_38, h1, h2, h3, h4]

/-- C4 witness: at `t0 = 0`, `Dt = 1` the hypothesis `0 < Dt` holds; the
Euler query time `t0 = 0` is inside `[0, 0 + 1)`, and (discharging also
the 4-stage proviso `DT_OPEN_SET_EPS < 1`) RK4's last query time
`0 + 1 - DT_OPEN_SET_EPS` is inside `[0, 0 + 1)`. -/
theorem scheme_query_times_in_domain_witness :
    (0 : ℚ) < 1 ∧ ((0 : ℚ) ≤ 0 ∧ (0 : ℚ) < 0 + 1) ∧
    ((0 : ℚ) ≤ 0 + 1 - DT_OPEN_SET_EPS ∧
      (0 : ℚ) + 1 - DT_OPEN_SET_EPS < 0 + 1) := by
  refine ⟨by norm_num, ?_, ?_⟩
  · exact (scheme_query_times_in_domain Unit Unit 0 1 (by norm_num)).1 0
      (by simp [EulerQueryTimes])
  · exact (scheme_query_times_in_domain Unit Unit 0 1 (by norm_num)).2.2.1
      (by norm_num [DT_OPEN_SET_EPS]) (0 + 1 - DT_OPEN_SET_EPS)
      (by simp [RK4QueryTimes])

/-- C7: for `n_step = N ≥ 1` and a pair-returning scheme,
`StateOdeIntegrateWithPoints` returns the list made of the input state
followed by one snapshot per step; it has `N + 1` elements, its head is
the input state exactly, and its element `i + 1` is the state obtained
after running the first `i + 1` steps of the chain. -/
theorem withPoints_snapshot_invariant (P S : Type) (g : PureScheme P S)
    (p : ℚ → P) (x : ℚ) (f : P → ℚ → S × ℚ) (N : ℕ) (hN : 1 ≤ N) :
    StateOdeIntegrateWithPoints p x f (toScheme g) N
      = Except.ok (x :: snapshots g p f (1 / (N : ℚ)) (linspace 0 1 N) x) ∧
    (x :: snapshots g p f (1 / (N : ℚ)) (linspace 0 1 N) x).length = N + 1 ∧
    (x :: snapshots g p f (1 / (N : ℚ)) (linspace 0 1 N) x).head? = some x ∧
    ∀ i : ℕ, i < N →
      (x :: snapshots g p f (1 / (N : ℚ)) (linspace 0 1 N) x)[i + 1]?
        = some (stepChain g p f (1 / (N : ℚ))
            ((linspace 0 1 N).take (i + 1)) x) := by
  have hn : N ≠ 0 := by omega
  refine ⟨withPoints_eq_snapshots g p x f N hn, ?_, rfl, ?_⟩
  · rw [List.length_cons, snapshots_length, linspace_length]
  · intro i hi
    rw [List.getElem?_cons_succ]
    exact snapshots_getElem g p f _ _ x i (by rw [linspace_length]; exact hi)

/-- C7 witness: one step of a state-preserving scheme from `x = 1` gives
the snapshot list `[1, 1]` of length `2`. -/
theorem withPoints_snapshot_invariant_witness :
    1 ≤ 1 ∧ StateOdeIntegrateWithPoints (fun _ : ℚ => ()) 1
      (fun _ x => ((), x)) (toScheme (fun _ x _ _ _ => ((), x))) 1
      = Except.ok [1, 1] := by
  refine ⟨le_rfl, ?_⟩
  have h := (withPoints_snapshot_invariant Unit Unit (fun _ x _ _ _ => ((), x))
      (fun _ : ℚ => ()) 1 (fun _ x => ((), x)) 1 le_rfl).1
  rw [h]
  norm_num [linspace, snapshots]

/-- C8: for identical inputs with `n_step = N ≥ 1` and a pair-returning
scheme, `StateOdeIntegrateFast` returns exactly the final chained state —
a bare state with no auxiliary-state component — and that value is the
last element of the list `StateOdeIntegrateWithPoints` returns. -/
theorem drivers_consistency (P S : Type) (g : PureScheme P S) (p : ℚ → P)
    (x : ℚ) (f : P → ℚ → S × ℚ) (N : ℕ) (hN : 1 ≤ N) :
    StateOdeIntegrateFast p x f (toScheme g) N
      = Except.ok (stepChain g p f (1 / (N : ℚ)) (linspace 0 1 N) x) ∧
    StateOdeIntegrateWithPoints p x f (toScheme g) N
      = Except.ok (x :: snapshots g p f (1 / (N : ℚ)) (linspace 0 1 N) x) ∧
    (x :: snapshots g p f (1 / (N : ℚ)) (linspace 0 1 N) x).getLast?
      = some (stepChain g p f (1 / (N : ℚ)) (linspace 0 1 N) x) := by
  have hn : N ≠ 0 := by omega
  exact ⟨fast_eq_stepChain g p x f N hn, withPoints_eq_snapshots g p x f N hn,
    snapshots_getLast g p f _ _ x⟩

/-- C8 witness: one step of a state-preserving scheme from `x = 1`:
the fast driver returns `1`, the last snapshot. -/
theorem drivers_consistency_witness :
    1 ≤ 1 ∧ StateOdeIntegrateFast (fun _ : ℚ => ()) 1
      (fun _ x => ((), x)) (toScheme (fun _ x _ _ _ => ((), x))) 1
      = Except.ok 1 := by
  refine ⟨le_rfl, ?_⟩
  have h := (drivers_consistency Unit Unit (fun _ x _ _ _ => ((), x))
      (fun _ : ℚ => ()) 1 (fun _ x => ((), x)) 1 le_rfl).1
  rw [h]
  norm_num [linspace, stepChain]

/-- C2 counterexample: with `n_step = 2` and a scheme that stores its
start time `t` as the new state, the recorded snapshots are `[0, 0, 1]`:
the second scheme call starts at `t = 1.0`, not at `1/2 = i/n_step`, so
the start times are not `i/n_step` and are not all below `1.0` (the grid
is `numpy.linspace(0, 1, n_step)`, endpoint included, not `i/n_step`). -/
theorem integrate_grid_times_counterexample :
    StateOdeIntegrateWithPoints (fun _ : ℚ => ()) 0 (fun _ x => ((), x))
        (toScheme (fun _ _ t _ _ => ((), t))) 2 = Except.ok [0, 0, 1] ∧
    StateOdeIntegrateWithPoints (fun _ : ℚ => ()) 0 (fun _ x => ((), x))
        (toScheme (fun _ _ t _ _ => ((), t))) 2 ≠ Except.ok [0, 0, 1 / 2] := by
  have h : StateOdeIntegrateWithPoints (fun _ : ℚ => ()) 0 (fun _ x => ((), x))
      (toScheme (fun _ _ t _ _ => ((), t))) 2 = Except.ok [0, 0, 1] := by
    rw [withPoints_eq_snapshots _ _ _ _ 2 (by norm_num)]
    norm_num [linspace, List.range_succ, snapshots]
  refine ⟨h, ?_⟩
  rw [h]
  intro hc
  have h2 := Except.ok.inj hc
  have h3 : (1 : ℚ) = 1 / 2 := by
    have := List.tail_eq_of_cons_eq (List.tail_eq_of_cons_eq h2)
    exact (List.head_eq_of_cons_eq this)
  norm_num at h3

/-- C2 amended: for `n_step = n ≥ 1` and a pair-returning scheme, both
drivers run the scheme exactly `n` times (the grid has `n` points), in
strictly ascending start times, with fixed `Dt = 1/n`, feeding each
step's output state into the next step; but the start times are the
`numpy.linspace(0, 1, n)` points `i/(n-1)` for `i = 0..n-1` when
`n ≥ 2` — the last one equal to `1.0`, not below it — and `[0]` when
`n = 1`. -/
theorem integrate_grid_times_amended (P S : Type) (g : PureScheme P S)
    (p : ℚ → P) (x : ℚ) (f : P → ℚ → S × ℚ) (n : ℕ) (hn : 1 ≤ n) :
    StateOdeIntegrateFast p x f (toScheme g) n
      = Except.ok (stepChain g p f (1 / (n : ℚ)) (linspace 0 1 n) x) ∧
    StateOdeIntegrateWithPoints p x f (toScheme g) n
      = Except.ok (x :: snapshots g p f (1 / (n : ℚ)) (linspace 0 1 n) x) ∧
    (linspace 0 1 n).length = n ∧
    (linspace 0 1 n).Sorted (· < ·) ∧
    (2 ≤ n → linspace 0 1 n
        = (List.range n).map (fun i : ℕ => (i : ℚ) / ((n : ℚ) - 1))) ∧
    (n = 1 → linspace 0 1 n = [0]) := by
  have hne : n ≠ 0 := by omega
  refine ⟨fast_eq_stepChain g p x f n hne, withPoints_eq_snapshots g p x f n hne,
    linspace_length 0 1 n, linspace_sorted n, fun h2 => linspace_eq_of_two_le n h2,
    fun h1 => ?_⟩
  subst h1
  exact linspace_one_point

/-- C2 amended witness: at `n = 2` with the time-recording scheme the
fast driver returns the last start time `1`. -/
theorem integrate_grid_times_amended_witness :
    1 ≤ 2 ∧ StateOdeIntegrateFast (fun _ : ℚ => ()) 0 (fun _ x => ((), x))
      (toScheme (fun _ _ t _ _ => ((), t))) 2 = Except.ok 1 := by
  refine ⟨by norm_num, ?_⟩
  have h := (integrate_grid_times_amended Unit Unit (fun _ _ t _ _ => ((), t))
      (fun _ : ℚ => ()) 0 (fun _ x => ((), x)) 2 (by norm_num)).1
  rw [h]
  norm_num [linspace, List.range_succ, stepChain]

end ContinuousNet
